import Mathlib

/-!
Verification of the agent-analytics-core specification against a shallow
embedding of the repository's source code.

The embedding covers:
* the DJB2 bucket hash and weighted variant assignment of the client
  tracker (`tracker.src.js`) and its mirror in the experiment tests;
* the session upsert built by `BaseAdapter._sessionUpsertSqlAndParams`
  and the statement list built by `BaseAdapter.trackBatch`;
* the flexible query builder `BaseAdapter.query` together with
  `validatePropertyKey`;
* the experiment resolution function `aa.experiment` of the tracker and
  the `experimentWithForcing` helper of the test suite;
* the `delta` helper of `BaseAdapter.getInsights`.

Machine integers are modelled as `Int`/`Nat` with explicit reduction into
the signed 32-bit range where the JavaScript source truncates (`hash & hash`).
Numeric values flowing through `delta` are modelled as rationals.
-/

namespace AgentAnalytics

/-! ## DJB2 hash (tracker.src.js `aa.experiment`, test `djb2Hash`) -/

/-- Reduce an integer into the signed 32-bit range `[-2^31, 2^31)`,
the effect of JavaScript's `hash & hash` (ToInt32). -/
def toInt32 (n : Int) : Int :=
  (n + 2 ^ 31) % 2 ^ 32 - 2 ^ 31

/-- One loop iteration of the DJB2 hash:
`hash = ((hash << 5) - hash) + str.charCodeAt(j); hash = hash & hash`.
`hash << 5` coerces its operand to int32 and keeps the low 32 bits of the
shift, i.e. `toInt32 (h * 32)`; the subtraction and the addition of the
character code are exact in IEEE doubles at these magnitudes, and
`hash & hash` truncates the sum back to int32. -/
def djb2Step (h : Int) (c : Nat) : Int :=
  toInt32 (toInt32 (h * 32) - h + c)

/-- `djb2Hash` from the experiment tests / `aa.experiment` in the tracker:
fold `djb2Step` over the character codes starting from 0, then
`Math.abs(hash) % 100`.  A string is represented by the list of its
character codes. -/
def djb2Hash (s : List Nat) : Nat :=
  (s.foldl djb2Step 0).natAbs % 100

/-- Character codes of a string (UTF-16 units of `charCodeAt`; for the
basic-plane strings handled here these coincide with code points). -/
def charCodes (s : String) : List Nat :=
  s.toList.map Char.toNat

/-! ## Weighted variant assignment (`assignVariant` in the tests,
the cumulative-weight loop in `aa.experiment`) -/

structure Variant where
  key : String
  weight : Nat
deriving DecidableEq, Repr

/-- The loop body of `assignVariant`: walk the variants accumulating the
running total, return the first key whose cumulative weight exceeds the
bucket, or the initial `assigned` value (`variants[0].key`) when the walk
never breaks. -/
def assignGo (bucket cumulative : Nat) (assigned : String) : List Variant → String
  | [] => assigned
  | v :: rest =>
    if bucket < cumulative + v.weight then v.key
    else assignGo bucket (cumulative + v.weight) assigned rest

/-- `assignVariant(bucket, variants)`: `assigned` starts at
`variants[0].key` (JavaScript throws on an empty list, modelled as `none`). -/
def assignVariant (bucket : Nat) (variants : List Variant) : Option String :=
  match variants with
  | [] => none
  | v :: _ => some (assignGo bucket 0 v.key variants)

/-- Sum of the weights of a variant list. -/
def weightSum (variants : List Variant) : Nat :=
  (variants.map Variant.weight).sum

/-! ## Session rows and the upsert of `_sessionUpsertSqlAndParams` -/

/-- JavaScript truthiness of an optional string:
`undefined`, `null` and `""` are falsy. -/
def jsTruthy : Option String → Bool
  | some s => s != ""
  | none => false

/-- The flat property map of an event, restricted to the keys the session
aggregator inspects (`path`, `url`). -/
structure EventProps where
  path : Option String := none
  url : Option String := none
deriving DecidableEq, Repr

/-- `event_data.properties.path || event_data.properties.url || null`
(guarded by the `typeof === 'object'` check on `properties`). -/
def pageFromProps : Option EventProps → Option String
  | none => none
  | some p => if jsTruthy p.path then p.path else if jsTruthy p.url then p.url else none

/-- `event_data._count || 1` — `0` is falsy in JavaScript. -/
def countOr1 : Option Int → Int
  | some n => if n != 0 then n else 1
  | none => 1

/-- `event_data.timestamp || Date.now()` — `now` stands for `Date.now()`. -/
def resolveTs (now : Int) : Option Int → Int
  | some v => if v != 0 then v else now
  | none => now

/-- Two-digit zero padding for the date formatter. -/
def pad2 (n : Int) : String :=
  if n < 10 then "0" ++ toString n else toString n

/-- `formatDate`: the UTC calendar date `YYYY-MM-DD` of an epoch-millisecond
timestamp (`new Date(ts).toISOString().split('T')[0]`), via the standard
Gregorian civil-from-days conversion. -/
def formatDate (ts : Int) : String :=
  let z := ts / 86400000 + 719468
  let era := z / 146097
  let doe := z % 146097
  let yoe := (doe - doe / 1460 + doe / 36524 - doe / 146096) / 365
  let doy := doe - (365 * yoe + yoe / 4 - yoe / 100)
  let mp := (5 * doy + 2) / 153
  let d := doy - (153 * mp + 2) / 5 + 1
  let m := mp + (if mp < 10 then 3 else -9)
  let y := yoe + era * 400 + (if m ≤ 2 then 1 else 0)
  toString y ++ "-" ++ pad2 m ++ "-" ++ pad2 d

/-- One row of the `sessions` table. -/
structure SessionRow where
  session_id : String
  user_id : Option String
  project_id : String
  start_time : Int
  end_time : Int
  duration : Int
  entry_page : Option String
  exit_page : Option String
  event_count : Int
  is_bounce : Int
  date : String
deriving DecidableEq, Repr

/-- The `event_data` argument of `_sessionUpsertSqlAndParams`. -/
structure EventData where
  session_id : String
  user_id : Option String := none
  timestamp : Option Int := none
  properties : Option EventProps := none
  _count : Option Int := none

/-- The inserted ("excluded") row encoded by the parameter list built by
`_sessionUpsertSqlAndParams(project, event_data)`: start = end = timestamp,
duration 0, entry = exit = page, `event_count = _count || 1`, bounce 1. -/
def sessionUpsertParams (now : Int) (project : String) (e : EventData) : SessionRow :=
  let ts := resolveTs now e.timestamp
  let page := pageFromProps e.properties
  { session_id := e.session_id
    user_id := e.user_id
    project_id := project
    start_time := ts
    end_time := ts
    duration := 0
    entry_page := page
    exit_page := page
    event_count := countOr1 e._count
    is_bounce := 1
    date := formatDate ts }

/-- The effect of the upsert statement on the (at most one) existing row
with the excluded row's `session_id`: insert when absent, otherwise the
`ON CONFLICT(session_id) DO UPDATE SET` merge.  Columns not listed in the
`UPDATE` clause (user, project, date) keep their stored values. -/
def sessionUpsert (existing : Option SessionRow) (excluded : SessionRow) : SessionRow :=
  match existing with
  | none => excluded
  | some s =>
    { s with
      start_time := min s.start_time excluded.start_time
      end_time := max s.end_time excluded.end_time
      duration := max s.end_time excluded.end_time - min s.start_time excluded.start_time
      entry_page := if excluded.start_time < s.start_time then excluded.entry_page else s.entry_page
      exit_page := if excluded.end_time ≥ s.end_time then excluded.exit_page else s.exit_page
      event_count := s.event_count + excluded.event_count
      is_bounce := if s.event_count + excluded.event_count > 1 then 0 else 1 }

/-- Folding a sequence of excluded rows into an existing session row,
one upsert at a time. -/
def foldUpsert (r : SessionRow) (evs : List SessionRow) : SessionRow :=
  evs.foldl (fun acc e => sessionUpsert (some acc) e) r

/-! ## `trackBatch` -/

/-- One element of the `events` argument of `trackBatch`. -/
structure BatchEvent where
  project : String
  event : String
  properties : Option EventProps := none
  user_id : Option String := none
  session_id : Option String := none
  timestamp : Option Int := none
deriving DecidableEq, Repr

/-- A prepared statement produced by `trackBatch`: either an event-table
insert or a session upsert (identified by its SQL text; the upsert's
parameters are the encoded excluded row). -/
inductive Stmt where
  | insertEvent (project : String) (event : String) (properties : Option EventProps)
      (user_id : Option String) (session_id : Option String) (timestamp : Int) (date : String)
  | upsertSession (project : String) (row : SessionRow)
deriving DecidableEq, Repr

/-- The event-table insert built for one batch element (the generated
`ulid()` identifier is not modelled; it appears in no claim). -/
def batchInsertStmt (now : Int) (e : BatchEvent) : Stmt :=
  let ts := resolveTs now e.timestamp
  Stmt.insertEvent e.project e.event e.properties e.user_id e.session_id ts (formatDate ts)

/-- The session upsert built for one batch element: skipped when the
element's `session_id` is falsy (`if (!e.session_id) continue`), otherwise
`_sessionUpsertSqlAndParams(e.project, {session_id, user_id, timestamp: ts,
properties})` — note that no `_count` is passed. -/
def batchUpsertStmt (now : Int) (e : BatchEvent) : Option Stmt :=
  match e.session_id with
  | some sid =>
    if sid != "" then
      let ts := resolveTs now e.timestamp
      some (Stmt.upsertSession e.project (sessionUpsertParams now e.project
        { session_id := sid, user_id := e.user_id, timestamp := some ts,
          properties := e.properties }))
    else none
  | none => none

/-- `trackBatch(events)`: a first loop pushes one event insert per batch
element, a second loop pushes one session upsert per batch element whose
`session_id` is truthy. -/
def trackBatch (now : Int) (events : List BatchEvent) : List Stmt :=
  events.map (batchInsertStmt now) ++ events.filterMap (batchUpsertStmt now)

/-- Is this statement a session upsert? -/
def isUpsertStmt : Stmt → Bool
  | .upsertSession _ _ => true
  | _ => false

/-- Is this statement a session upsert for the given session identifier? -/
def isUpsertFor (sid : String) : Stmt → Bool
  | .upsertSession _ r => r.session_id == sid
  | _ => false

/-! ## `BaseAdapter.query` and its validation -/

def ALLOWED_METRICS : List String :=
  ["event_count", "unique_users", "session_count", "bounce_rate", "avg_duration"]

def ALLOWED_GROUP_BY : List String :=
  ["event", "date", "user_id", "session_id"]

def FILTERABLE_FIELDS : List String :=
  ["event", "user_id", "date"]

def ALLOWED_ORDER_BY : List String :=
  ["event_count", "unique_users", "date", "event"]

/-- `FILTER_OPS[op]`. -/
def filterOpSql : String → Option String
  | "eq" => some "="
  | "neq" => some "!="
  | "gt" => some ">"
  | "lt" => some "<"
  | "gte" => some ">="
  | "lte" => some "<="
  | _ => none

/-- `validatePropertyKey` as a predicate: nonempty, at most 128 characters,
letters, digits and underscore only (the function throws
`INVALID_PROPERTY_KEY` exactly when this is false). -/
def validPropertyKey (key : String) : Bool :=
  !(key == "") && decide (key.length ≤ 128)
    && key.toList.all (fun c => c.isAlphanum || c == '_')

/-- The validation failures `query` can raise. -/
inductive QueryError where
  | invalidMetric (m : String)
  | invalidGroupBy (g : String)
  | invalidFilterOp (op : String)
  | invalidPropertyKey
deriving DecidableEq, Repr

/-- One column of the generated `SELECT` list: a bare group-by column, or
an aggregate with its alias. -/
inductive SelectCol where
  | group (col : String)
  | countStar (aliasName : String)
  | countDistinct (col : String) (aliasName : String)
deriving DecidableEq, Repr

/-- The name under which a select column appears in a result row. -/
def colName : SelectCol → String
  | .group col => col
  | .countStar a => a
  | .countDistinct _ a => a

/-- The select column pushed for one requested metric. -/
def metricSelect (m : String) : Option SelectCol :=
  if m == "event_count" then some (.countStar "event_count")
  else if m == "unique_users" then some (.countDistinct "user_id" "unique_users")
  else if m == "session_count" then some (.countDistinct "session_id" "session_count")
  else if m == "bounce_rate" then some (.countDistinct "session_id" "_session_count_for_bounce")
  else if m == "avg_duration" then some (.countDistinct "session_id" "_session_count_for_duration")
  else none

/-- `selectParts`: the group-by columns followed by one aggregate per
metric, with `COUNT(*) as event_count` as fallback when empty. -/
def selectParts (metrics group_by : List String) : List SelectCol :=
  if (group_by.map SelectCol.group ++ metrics.filterMap metricSelect).isEmpty then
    [.countStar "event_count"]
  else group_by.map SelectCol.group ++ metrics.filterMap metricSelect

/-- One caller-supplied filter `{field, op, value}`; absent members are
modelled by `""` / `none` (all falsy). -/
structure Filter where
  field : String := ""
  op : String := ""
  value : Option String := none
deriving DecidableEq, Repr

/-- A generated `WHERE` predicate beyond the fixed project/date-range ones:
a fixed-field comparison or a `json_extract(properties, '$.key')`
comparison. -/
inductive WherePred where
  | fieldPred (field sqlOp value : String)
  | propPred (key sqlOp value : String)
deriving DecidableEq, Repr

/-- `field.startsWith('properties.')`, expressed over the character list
(the prefix `properties.` is 11 characters of one byte each, so the
character-level and byte-level tests agree). -/
def propsPrefixed (field : String) : Bool :=
  field.toList.take 11 == "properties.".toList

/-- `field.replace('properties.', '')` for a field that passed the
`startsWith` test: `String.replace` replaces the first occurrence, which
is the leading one, so the result is the field without its first 11
characters. -/
def propsKey (field : String) : String :=
  String.mk (field.toList.drop 11)

/-- The filter loop of `query`: skip incomplete filters, raise on an
unknown operator, compare fixed fields directly, validate property keys
before interpolating them, silently drop unknown fields. -/
def buildFilters : List Filter → Except QueryError (List WherePred)
  | [] => .ok []
  | f :: rest =>
    match f.value with
    | none => buildFilters rest
    | some v =>
      if f.field == "" || f.op == "" then buildFilters rest
      else
        match filterOpSql f.op with
        | none => .error (.invalidFilterOp f.op)
        | some sqlOp =>
          if FILTERABLE_FIELDS.contains f.field then
            (buildFilters rest).map (fun ps => .fieldPred f.field sqlOp v :: ps)
          else if propsPrefixed f.field then
            let propKey := propsKey f.field
            if validPropertyKey propKey then
              (buildFilters rest).map (fun ps => .propPred propKey sqlOp v :: ps)
            else .error .invalidPropertyKey
          else buildFilters rest

/-- The request body of the flexible query endpoint. -/
structure QueryReq where
  project : String
  metrics : List String := ["event_count"]
  filters : List Filter := []
  date_from : Option String := none
  date_to : Option String := none
  group_by : List String := []
  order_by : Option String := none
  order : Option String := none
  limit : Int := 100
deriving DecidableEq, Repr

/-- The fully validated query `query` would execute (its `SELECT` list,
resolved period, generated predicates, ordering and clamped limit). -/
structure QueryPlan where
  select : List SelectCol
  periodFrom : String
  periodTo : String
  wherePreds : List WherePred
  groupBy : List String
  orderField : String
  orderDir : String
  limit : Int
deriving DecidableEq, Repr

/-- `BaseAdapter.query` up to the storage call: validate metrics, then
group-by fields, then filters; only if everything passes is a plan built
and handed to the store (`_queryAll`).  `defaultFrom` and `todayStr` stand
for the clock-dependent `parseSince(null)` and `today()`. -/
def runQuery (defaultFrom todayStr : String) (req : QueryReq) : Except QueryError QueryPlan :=
  match req.metrics.find? (fun m => !(ALLOWED_METRICS.contains m)) with
  | some m => .error (.invalidMetric m)
  | none =>
    match req.group_by.find? (fun g => !(ALLOWED_GROUP_BY.contains g)) with
    | some g => .error (.invalidGroupBy g)
    | none =>
      match buildFilters req.filters with
      | .error e => .error e
      | .ok preds =>
        let fromDate := match req.date_from with
          | some d => if d != "" then d else defaultFrom
          | none => defaultFrom
        let toDate := match req.date_to with
          | some d => if d != "" then d else todayStr
          | none => todayStr
        let fallbackOrder := if req.group_by.contains "date" then "date" else "event_count"
        let orderField := match req.order_by with
          | some ob => if ob != "" && ALLOWED_ORDER_BY.contains ob then ob else fallbackOrder
          | none => fallbackOrder
        let orderDir := if req.order == some "asc" then "ASC" else "DESC"
        .ok { select := selectParts req.metrics req.group_by
              periodFrom := fromDate
              periodTo := toDate
              wherePreds := preds
              groupBy := req.group_by
              orderField := orderField
              orderDir := orderDir
              limit := min req.limit 1000 }

/-- Did the query end in an `INVALID_METRIC` validation failure (before
any storage call)? -/
def isInvalidMetricError : Except QueryError QueryPlan → Bool
  | .error (.invalidMetric _) => true
  | _ => false

/-! ## Experiment resolution -/

/-- One experiment configuration: an experiment key with its weighted
variants. -/
structure ExpConfig where
  key : String
  variants : List Variant
deriving DecidableEq, Repr

/-- An emitted `$experiment_exposure` record; `forced` models the presence
of the `forced: true` property. -/
structure Exposure where
  experiment : String
  variant : String
  forced : Bool
deriving DecidableEq, Repr

/-- The result of one experiment resolution: the returned variant (if any),
the updated per-page-load cache, and the exposure records emitted by this
call. -/
structure ExpOutcome where
  variant : Option String
  cache : List (String × String)
  exposures : List Exposure
deriving DecidableEq, Repr

/-- Look up an experiment by key in the server-distributed configuration
list. -/
def lookupConfig (cfgs : Option (List ExpConfig)) (name : String) : Option ExpConfig :=
  match cfgs with
  | some list => list.find? (fun c => c.key == name)
  | none => none

/-- Synthesize a configuration from an inline variant-key list:
`w = floor(100 / len)`, the remainder added to the first key's weight. -/
def inlineConfig (name : String) (vs : List String) : ExpConfig :=
  let w := 100 / vs.length
  let r := 100 - w * vs.length
  { key := name, variants := vs.mapIdx (fun i v => ⟨v, w + (if i = 0 then r else 0)⟩) }

/-- Configuration resolution: the server-distributed list is consulted
first; only when it yields nothing and an inline variant list was passed
is a configuration synthesized (`if (!config && variants)`). -/
def resolveConfig (experimentConfig : Option (List ExpConfig)) (name : String)
    (inlineVariants : Option (List String)) : Option ExpConfig :=
  match lookupConfig experimentConfig name, inlineVariants with
  | none, some vs => some (inlineConfig name vs)
  | c, _ => c

/-- `aa.experiment(name, variants)` from the tracker (`tracker.src.js`):
cached assignments are returned without emission; otherwise the
configuration is resolved (server list, else inline synthesis), the DJB2
bucket of `name + '.' + userId` is computed, the cumulative-weight walk
picks the variant, the result is cached and one exposure (never marked
forced — the function reads no URL parameter) is emitted.  An empty
variant list (a JavaScript `TypeError` on `config.variants[0]`) is
modelled as no assignment. -/
def trackerExperiment (experimentConfig : Option (List ExpConfig)) (userId : String)
    (cache : List (String × String)) (name : String)
    (inlineVariants : Option (List String)) : ExpOutcome :=
  match cache.lookup name with
  | some v => { variant := some v, cache := cache, exposures := [] }
  | none =>
    match resolveConfig experimentConfig name inlineVariants with
    | none => { variant := none, cache := cache, exposures := [] }
    | some cfg =>
      match cfg.variants with
      | [] => { variant := none, cache := cache, exposures := [] }
      | v0 :: _ =>
        let bucket := djb2Hash (charCodes (name ++ "." ++ userId))
        let assigned := assignGo bucket 0 v0.key cfg.variants
        { variant := some assigned
          cache := (name, assigned) :: cache
          exposures := [⟨name, assigned, false⟩] }

/-- `experimentWithForcing` from the experiment test suite (documented
there as matching `tracker.src.js`): like `trackerExperiment`, but before
hashing it reads the query parameter `aa_variant_<name>` (the query string
is modelled as its parsed key/value list); a truthy value equal to one of
the configured variant keys is cached and returned with a
`forced: true` exposure, anything else falls through to hash assignment. -/
def experimentWithForcing (name : String) (experimentConfig : Option (List ExpConfig))
    (cache : List (String × String)) (userId : String)
    (searchParams : List (String × String))
    (inlineVariants : Option (List String)) : ExpOutcome :=
  match cache.lookup name with
  | some v => { variant := some v, cache := cache, exposures := [] }
  | none =>
    match resolveConfig experimentConfig name inlineVariants with
    | none => { variant := none, cache := cache, exposures := [] }
    | some cfg =>
      let urlForced := searchParams.lookup ("aa_variant_" ++ name)
      let forcedHit :=
        match urlForced with
        | some fv => if fv != "" && cfg.variants.any (fun v => v.key == fv) then some fv else none
        | none => none
      match forcedHit with
      | some fv =>
        { variant := some fv, cache := (name, fv) :: cache, exposures := [⟨name, fv, true⟩] }
      | none =>
        let bucket := djb2Hash (charCodes (name ++ "." ++ userId))
        match assignVariant bucket cfg.variants with
        | none => { variant := none, cache := cache, exposures := [] }
        | some assigned =>
          { variant := some assigned
            cache := (name, assigned) :: cache
            exposures := [⟨name, assigned, false⟩] }

/-! ## `getInsights` delta -/

/-- One period-over-period metric delta. -/
structure DeltaRow where
  current : ℚ
  previous : ℚ
  change : ℚ
  change_pct : Option Int
deriving DecidableEq, Repr

/-- JavaScript's `Math.round`: `⌊x + 1/2⌋`. -/
def jsRound (q : ℚ) : Int := ⌊q + 1 / 2⌋

/-- The `delta(current, previous)` helper of `getInsights`; numeric values
are modelled as rationals, `null` as `none`. -/
def delta (current previous : ℚ) : DeltaRow :=
  { current := current
    previous := previous
    change := current - previous
    change_pct :=
      if previous > 0 then some (jsRound ((current - previous) / previous * 100))
      else if current > 0 then none else some 0 }

/-! ## Concrete scenarios used by the claims -/

/-- Event A of the session-merge scenario: session `s`, t = 1,000,000,
`path = /home`. -/
def eventA : EventData :=
  { session_id := "s", user_id := some "u1", timestamp := some 1000000,
    properties := some { path := some "/home" } }

/-- Event B of the session-merge scenario: session `s`, t = 1,060,000,
`path = /about`. -/
def eventB : EventData :=
  { session_id := "s", user_id := some "u1", timestamp := some 1060000,
    properties := some { path := some "/about" } }

/-- The session row after upserting event A into an empty store. -/
def rowA : SessionRow := sessionUpsert none (sessionUpsertParams 0 "p1" eventA)

/-- The session row after then upserting event B. -/
def mergedAB : SessionRow := sessionUpsert (some rowA) (sessionUpsertParams 0 "p1" eventB)

/-- A two-event batch whose elements share session `s`. -/
def batchAB : List BatchEvent :=
  [{ project := "p1", event := "page_view", session_id := some "s",
     user_id := some "u1", timestamp := some 1000000,
     properties := some { path := some "/a" } },
   { project := "p1", event := "click", session_id := some "s",
     user_id := some "u1", timestamp := some 1010000,
     properties := some { path := some "/b" } }]

/-- The session upsert `trackBatch` builds for the first element of
`batchAB`. -/
def upsertA : Stmt :=
  Stmt.upsertSession "p1" (sessionUpsertParams 0 "p1"
    { session_id := "s", user_id := some "u1", timestamp := some 1000000,
      properties := some { path := some "/a" } })

/-- The two-variant 50/50 experiment configuration of the forcing tests. -/
def heroConfig : List ExpConfig :=
  [{ key := "hero_headline", variants := [⟨"control", 50⟩, ⟨"new_copy", 50⟩] }]

/-- A request asking for the two rate/duration metrics. -/
def c10Req : QueryReq := { project := "p", metrics := ["bounce_rate", "avg_duration"] }

/-- The plan `query` builds for `c10Req` (with `parseSince(null)` and
`today()` fixed to the dates below). -/
def c10Plan : QueryPlan :=
  { select := [.countDistinct "session_id" "_session_count_for_bounce",
               .countDistinct "session_id" "_session_count_for_duration"]
    periodFrom := "2025-01-01"
    periodTo := "2025-01-08"
    wherePreds := []
    groupBy := []
    orderField := "event_count"
    orderDir := "DESC"
    limit := 100 }

end AgentAnalytics

namespace AgentAnalytics

/-! ### Interval characterisation of the cumulative walk -/

theorem assignGo_of_mem_interval :
    ∀ (l : List Variant) (c : Nat) (d : String) (b i : Nat) (h : i < l.length),
      c + weightSum (l.take i) ≤ b →
      b < c + weightSum (l.take i) + (l.get ⟨i, h⟩).weight →
      assignGo b c d l = (l.get ⟨i, h⟩).key := by
  intro l
  induction l with
  | nil => intro c d b i h; simp at h
  | cons v rest ih =>
    intro c d b i h hlo hhi
    cases i with
    | zero =>
      simp [weightSum] at hlo hhi
      simp [assignGo, Nat.lt_of_lt_of_le hhi (le_refl _), hhi]
    | succ j =>
      have hj : j < rest.length := Nat.lt_of_succ_lt_succ h
      have hlo' : (c + v.weight) + weightSum (rest.take j) ≤ b := by
        simpa [weightSum, List.take, Nat.add_assoc] using hlo
      have hhi' : b < (c + v.weight) + weightSum (rest.take j) + (rest.get ⟨j, hj⟩).weight := by
        simpa [weightSum, List.take, Nat.add_assoc] using hhi
      have hnot : ¬ b < c + v.weight := by
        intro hb
        have : c + v.weight ≤ b :=
          le_trans (Nat.le_add_right _ _) hlo'
        exact absurd hb (not_lt_of_ge this)
      simp only [assignGo, if_neg hnot]
      exact ih (c + v.weight) d b j hj hlo' hhi'

theorem exists_interval_of_lt_sum :
    ∀ (l : List Variant) (c b : Nat), c ≤ b → b < c + weightSum l →
      ∃ i, ∃ h : i < l.length,
        c + weightSum (l.take i) ≤ b ∧
        b < c + weightSum (l.take i) + (l.get ⟨i, h⟩).weight := by
  intro l
  induction l with
  | nil =>
    intro c b hcb hlt
    simp [weightSum] at hlt
    exact absurd hlt (not_lt_of_ge hcb)
  | cons v rest ih =>
    intro c b hcb hlt
    by_cases hb : b < c + v.weight
    · exact ⟨0, Nat.succ_pos _, by simpa [weightSum] using hcb, by simpa [weightSum] using hb⟩
    · have hge : c + v.weight ≤ b := le_of_not_lt hb
      have hlt' : b < (c + v.weight) + weightSum rest := by
        have : weightSum (v :: rest) = v.weight + weightSum rest := by
          simp [weightSum]
        omega
      obtain ⟨j, hj, hlo, hhi⟩ := ih (c + v.weight) b hge hlt'
      refine ⟨j + 1, Nat.succ_lt_succ hj, ?_, ?_⟩
      · simpa [weightSum, List.take, Nat.add_assoc] using hlo
      · simpa [weightSum, List.take, Nat.add_assoc] using hhi

theorem weightSum_take_add_get {l : List Variant} {i : Nat} (h : i < l.length) :
    weightSum (l.take (i + 1)) = weightSum (l.take i) + (l.get ⟨i, h⟩).weight := by
  have hts : l.take (i + 1) = l.take i ++ [l.get ⟨i, h⟩] := by
    rw [List.take_succ, List.getElem?_eq_getElem h]
    simp [List.get_eq_getElem]
  rw [hts]
  simp only [weightSum, List.map_append, List.sum_append, List.map_cons,
    List.map_nil, List.sum_cons, List.sum_nil, Nat.add_zero]

theorem weightSum_take_le (l : List Variant) (n : Nat) :
    weightSum (l.take n) ≤ weightSum l := by
  have hsplit : weightSum l = weightSum (l.take n) + weightSum (l.drop n) := by
    conv_lhs => rw [← List.take_append_drop n l]
    simp [weightSum]
  omega

theorem key_index_unique {l : List Variant}
    (hnd : (l.map Variant.key).Nodup) {i j : Nat}
    (hi : i < l.length) (hj : j < l.length)
    (hk : (l.get ⟨i, hi⟩).key = (l.get ⟨j, hj⟩).key) : i = j := by
  have hi' : i < (l.map Variant.key).length := by simpa using hi
  have hj' : j < (l.map Variant.key).length := by simpa using hj
  have : (l.map Variant.key).get ⟨i, hi'⟩ = (l.map Variant.key).get ⟨j, hj'⟩ := by
    simpa [List.get_map] using hk
  have := (List.Nodup.get_inj_iff hnd).mp this
  simpa using congrArg Fin.val this

/-- With weights summing to exactly 100, every bucket below 100 is assigned
to the variant whose cumulative-weight interval contains it, and the set of
buckets assigned to the variant at index `i` is exactly the interval
`[pre i, pre i + weight i)`. -/
theorem assignVariant_eq_iff_interval {l : List Variant}
    (hsum : weightSum l = 100) (hnd : (l.map Variant.key).Nodup)
    {i : Nat} (h : i < l.length) {b : Nat} (hb : b < 100) :
    assignVariant b l = some (l.get ⟨i, h⟩).key ↔
      weightSum (l.take i) ≤ b ∧ b < weightSum (l.take i) + (l.get ⟨i, h⟩).weight := by
  obtain ⟨hd, tl, rfl⟩ : ∃ hd tl, l = hd :: tl := by
    cases l with
    | nil => simp at h
    | cons hd tl => exact ⟨hd, tl, rfl⟩
  constructor
  · intro hassign
    have hbsum : b < 0 + weightSum (hd :: tl) := by simpa [hsum] using hb
    obtain ⟨j, hj, hlo, hhi⟩ := exists_interval_of_lt_sum (hd :: tl) 0 b (Nat.zero_le _) hbsum
    have hgo : assignGo b 0 hd.key (hd :: tl) = ((hd :: tl).get ⟨j, hj⟩).key :=
      assignGo_of_mem_interval (hd :: tl) 0 hd.key b j hj hlo hhi
    have hkeys : ((hd :: tl).get ⟨j, hj⟩).key = ((hd :: tl).get ⟨i, h⟩).key := by
      have : some (assignGo b 0 hd.key (hd :: tl)) = some ((hd :: tl).get ⟨i, h⟩).key := by
        simpa [assignVariant] using hassign
      simpa [hgo] using this
    have hji : j = i := key_index_unique hnd hj h hkeys
    subst hji
    exact ⟨by simpa using hlo, by simpa using hhi⟩
  · rintro ⟨hlo, hhi⟩
    have hgo : assignGo b 0 hd.key (hd :: tl) = ((hd :: tl).get ⟨i, h⟩).key :=
      assignGo_of_mem_interval (hd :: tl) 0 hd.key b i h (by simpa using hlo) (by simpa using hhi)
    simp [assignVariant, hgo]

theorem assigned_bucket_count {l : List Variant}
    (hsum : weightSum l = 100) (hnd : (l.map Variant.key).Nodup)
    {i : Nat} (h : i < l.length) :
    ((Finset.range 100).filter
      (fun b => assignVariant b l = some (l.get ⟨i, h⟩).key)).card
      = (l.get ⟨i, h⟩).weight := by
  have hle : weightSum (l.take i) + (l.get ⟨i, h⟩).weight ≤ 100 := by
    have h1 := weightSum_take_add_get h
    have h2 := weightSum_take_le l (i + 1)
    omega
  have hset : (Finset.range 100).filter
      (fun b => assignVariant b l = some (l.get ⟨i, h⟩).key)
      = Finset.Ico (weightSum (l.take i))
          (weightSum (l.take i) + (l.get ⟨i, h⟩).weight) := by
    ext b
    simp only [Finset.mem_filter, Finset.mem_range, Finset.mem_Ico]
    constructor
    · rintro ⟨hb, hassign⟩
      exact (assignVariant_eq_iff_interval hsum hnd h hb).mp hassign
    · rintro ⟨hlo, hhi⟩
      have hb : b < 100 := lt_of_lt_of_le hhi hle
      exact ⟨hb, (assignVariant_eq_iff_interval hsum hnd h hb).mpr ⟨hlo, hhi⟩⟩
  rw [hset, Nat.card_Ico]
  omega

end AgentAnalytics

namespace AgentAnalytics

/-- C1: For every input string, the bucket hash is deterministic and returns
an integer in [0, 99], computed by the exact DJB2 algorithm: a 32-bit signed
accumulator initialized to 0, updated per character code as
`(accumulator << 5) - accumulator + charCode` with 32-bit signed wraparound,
and finally `abs(accumulator) mod 100`. -/
theorem claim_C1 (s : List Nat) :
    djb2Hash s < 100 ∧
    djb2Hash s
      = (s.foldl (fun (h : Int) (c : Nat) => toInt32 (toInt32 (h * 32) - h + (c : Int))) 0).natAbs % 100 ∧
    ∀ t : List Nat, s = t → djb2Hash s = djb2Hash t :=
  ⟨Nat.mod_lt _ (by norm_num), rfl, fun _ ht => by rw [ht]⟩

theorem claim_C1_witness :
    djb2Hash (charCodes "signup_cta.anon_abc123def") < 100 ∧
    djb2Hash (charCodes "signup_cta.anon_abc123def")
      = djb2Hash (charCodes "signup_cta.anon_abc123def") :=
  ⟨(claim_C1 (charCodes "signup_cta.anon_abc123def")).1,
   (claim_C1 (charCodes "signup_cta.anon_abc123def")).2.2 _ rfl⟩

/-- C2: For a two-variant 50/50 configuration, every bucket in 0–49 is
assigned the first variant and every bucket in 50–99 the second; and for
every ordered variant list with nonnegative integer weights summing to
exactly 100 (and pairwise distinct keys), the number of buckets in [0, 99]
that the cumulative weighted walk assigns to each variant equals that
variant's weight exactly. -/
theorem claim_C2 :
    (∀ b ∈ List.range 100,
      assignVariant b [⟨"control", 50⟩, ⟨"variant", 50⟩]
        = some (if b < 50 then "control" else "variant")) ∧
    ∀ (variants : List Variant), weightSum variants = 100 →
      (variants.map Variant.key).Nodup →
      ∀ (i : Nat) (h : i < variants.length),
        ((Finset.range 100).filter
          (fun b => assignVariant b variants = some ((variants.get ⟨i, h⟩).key))).card
          = (variants.get ⟨i, h⟩).weight := by
  constructor
  · decide
  · intro variants hsum hnd i h
    exact assigned_bucket_count hsum hnd h

theorem claim_C2_witness :
    weightSum [⟨"a", 80⟩, ⟨"b", 20⟩] = 100 ∧
    (([⟨"a", 80⟩, ⟨"b", 20⟩] : List Variant).map Variant.key).Nodup ∧
    ((Finset.range 100).filter
      (fun b => assignVariant b [⟨"a", 80⟩, ⟨"b", 20⟩] = some "a")).card = 80 := by
  refine ⟨by decide, by decide, ?_⟩
  have hcard := claim_C2.2 [⟨"a", 80⟩, ⟨"b", 20⟩] (by decide) (by decide) 0 (by decide)
  simpa using hcard

end AgentAnalytics

namespace AgentAnalytics

/-! ### Session merge claims -/

/-- C3: Starting from a store with no row for session `s`, merging event A
(session `s`, timestamp 1,000,000, `path=/home`) and then event B (session
`s`, timestamp 1,060,000, `path=/about`) via the session upsert yields
exactly one session row (the store holds at most one row per session
identifier, modelled by the single `Option SessionRow` slot both upserts
target) with `event_count = 2`, bounce flag 0, `duration = 60000`,
`entry_page = /home`, `exit_page = /about`. -/
theorem claim_C3 :
    mergedAB.session_id = "s" ∧
    mergedAB.event_count = 2 ∧
    mergedAB.is_bounce = 0 ∧
    mergedAB.duration = 60000 ∧
    mergedAB.entry_page = some "/home" ∧
    mergedAB.exit_page = some "/about" := by
  refine ⟨rfl, rfl, rfl, by decide, rfl, rfl⟩

theorem sessionUpsert_merge_event_count (r e : SessionRow) :
    (sessionUpsert (some r) e).event_count = r.event_count + e.event_count := rfl

theorem sessionUpsert_merge_is_bounce (r e : SessionRow) :
    (sessionUpsert (some r) e).is_bounce
      = if r.event_count + e.event_count > 1 then 0 else 1 := rfl

/-- C9: For every session row and every sequence of merged events whose
count contributions are (as always in the code) at least 1, the bounce
flag is monotonic: the event count never decreases, any merge into an
existing row clears the flag to 0 (so 1 → 0 is the only possible flip),
and a stored 0 is never turned back into 1. -/
theorem claim_C9 (r : SessionRow) (evs : List SessionRow)
    (hr : 1 ≤ r.event_count) (hevs : ∀ e ∈ evs, 1 ≤ e.event_count) :
    r.event_count ≤ (foldUpsert r evs).event_count ∧
    1 ≤ (foldUpsert r evs).event_count ∧
    (evs ≠ [] → (foldUpsert r evs).is_bounce = 0) ∧
    (r.is_bounce = 0 → (foldUpsert r evs).is_bounce = 0) := by
  induction evs generalizing r with
  | nil =>
    exact ⟨le_refl _, hr, fun h => absurd rfl h, fun h => by simpa [foldUpsert] using h⟩
  | cons e rest ih =>
    have he : 1 ≤ e.event_count := hevs e (by simp)
    have hrest : ∀ x ∈ rest, 1 ≤ x.event_count := fun x hx => hevs x (by simp [hx])
    have hstep : foldUpsert r (e :: rest) = foldUpsert (sessionUpsert (some r) e) rest := rfl
    have hcount : (sessionUpsert (some r) e).event_count = r.event_count + e.event_count :=
      sessionUpsert_merge_event_count r e
    have hcount1 : 1 ≤ (sessionUpsert (some r) e).event_count := by
      rw [hcount]; omega
    have hbounce : (sessionUpsert (some r) e).is_bounce = 0 := by
      rw [sessionUpsert_merge_is_bounce]
      have : r.event_count + e.event_count > 1 := by omega
      simp [this]
    obtain ⟨ihle, ihone, _, ihzero⟩ := ih (sessionUpsert (some r) e) hcount1 hrest
    refine ⟨?_, ?_, ?_, ?_⟩
    · rw [hstep]
      calc r.event_count ≤ (sessionUpsert (some r) e).event_count := by rw [hcount]; omega
        _ ≤ _ := ihle
    · rw [hstep]; exact ihone
    · intro _
      rw [hstep]
      exact ihzero hbounce
    · intro _
      rw [hstep]
      exact ihzero hbounce

theorem claim_C9_witness :
    rowA.event_count ≤ (foldUpsert rowA [sessionUpsertParams 0 "p1" eventB]).event_count ∧
    1 ≤ (foldUpsert rowA [sessionUpsertParams 0 "p1" eventB]).event_count ∧
    ([sessionUpsertParams 0 "p1" eventB] ≠ ([] : List SessionRow) →
      (foldUpsert rowA [sessionUpsertParams 0 "p1" eventB]).is_bounce = 0) ∧
    (rowA.is_bounce = 0 →
      (foldUpsert rowA [sessionUpsertParams 0 "p1" eventB]).is_bounce = 0) :=
  claim_C9 rowA [sessionUpsertParams 0 "p1" eventB] (by decide)
    (by intro e he; simp at he; subst he; decide)

end AgentAnalytics

namespace AgentAnalytics

/-! ### Batched ingestion -/

/-- The claim C4 as stated is false: `trackBatch` does not fold the two
same-session events of `batchAB` into one upsert — it emits two session
upserts for session `s`. -/
theorem claim_C4_counterexample :
    (trackBatch 0 batchAB).countP (isUpsertFor "s") = 2 ∧
    ¬ (trackBatch 0 batchAB).countP (isUpsertFor "s") = 1 := by
  constructor
  · decide
  · decide

theorem countP_isUpsert_map_insert (now : Int) (events : List BatchEvent) :
    (events.map (batchInsertStmt now)).countP isUpsertStmt = 0 := by
  induction events with
  | nil => rfl
  | cons e rest ih => simp [batchInsertStmt, isUpsertStmt, List.countP_cons, ih]

theorem countP_isUpsert_filterMap_upsert (now : Int) (events : List BatchEvent) :
    (events.filterMap (batchUpsertStmt now)).countP isUpsertStmt
      = events.countP (fun e => jsTruthy e.session_id) := by
  induction events with
  | nil => rfl
  | cons e rest ih =>
    rw [List.filterMap_cons, List.countP_cons]
    cases hsid : e.session_id with
    | none => simp [batchUpsertStmt, hsid, jsTruthy, ih]
    | some sid =>
      by_cases hne : sid = ""
      · subst hne
        simp [batchUpsertStmt, hsid, jsTruthy, ih]
      · have hb : (sid != "") = true := by simp [hne]
        simp [batchUpsertStmt, hsid, jsTruthy, hb, isUpsertStmt, List.countP_cons, ih]

/-- C4 (amended): batched multi-event ingestion performs no client-side
folding: `trackBatch` emits exactly one session-upsert statement per batch
event with a truthy session identifier — so the number of upserts for a
session equals the number of that session's events in the batch, not one —
and every emitted upsert carries an event-count parameter of 1
(no `_count` is ever passed). -/
theorem claim_C4 (now : Int) (events : List BatchEvent) :
    (trackBatch now events).countP isUpsertStmt
      = events.countP (fun e => jsTruthy e.session_id) ∧
    ∀ st ∈ trackBatch now events, ∀ p r, st = Stmt.upsertSession p r →
      r.event_count = 1 := by
  constructor
  · rw [trackBatch, List.countP_append, countP_isUpsert_map_insert,
      countP_isUpsert_filterMap_upsert, Nat.zero_add]
  · intro st hmem p r hst
    rw [trackBatch, List.mem_append] at hmem
    cases hmem with
    | inl hmap =>
      obtain ⟨e, _, heq⟩ := List.mem_map.mp hmap
      rw [hst] at heq
      simp [batchInsertStmt] at heq
    | inr hfm =>
      obtain ⟨e, _, heq⟩ := List.mem_filterMap.mp hfm
      cases hsid : e.session_id with
      | none => simp [batchUpsertStmt, hsid] at heq
      | some sid =>
        by_cases hne : sid = ""
        · subst hne
          simp [batchUpsertStmt, hsid] at heq
        · have hb : (sid != "") = true := by simp [hne]
          simp only [batchUpsertStmt, hsid, hb, if_true] at heq
          rw [hst] at heq
          have hrow : sessionUpsertParams now e.project
              { session_id := sid, user_id := e.user_id,
                timestamp := some (resolveTs now e.timestamp),
                properties := e.properties } = r := by
            have h1 := Option.some.inj heq
            have h2 := Stmt.upsertSession.inj h1
            exact h2.2
          rw [← hrow]
          rfl

theorem claim_C4_witness :
    (trackBatch 0 batchAB).countP isUpsertStmt
      = batchAB.countP (fun e => jsTruthy e.session_id) ∧
    ∀ p r, upsertA = Stmt.upsertSession p r → r.event_count = 1 :=
  ⟨(claim_C4 0 batchAB).1,
   fun p r h => (claim_C4 0 batchAB).2 upsertA (by decide) p r h⟩

end AgentAnalytics

namespace AgentAnalytics

/-! ### Query validation -/

theorem props_field_not_filterable {field : String}
    (h : propsPrefixed field = true) :
    FILTERABLE_FIELDS.contains field = false := by
  by_contra hc
  have hmem : field ∈ FILTERABLE_FIELDS := by
    have hb : FILTERABLE_FIELDS.contains field = true := by
      cases hcc : FILTERABLE_FIELDS.contains field
      · exact absurd hcc hc
      · rfl
    simpa using hb
  simp [FILTERABLE_FIELDS] at hmem
  rcases hmem with rfl | rfl | rfl <;> exact absurd h (by decide)

/-- A filter all of whose members are present and whose operator is one of
the six recognised ones — the shape §4.3 of the spec gives to filters. -/
def specShaped (f : Filter) : Prop :=
  f.value ≠ none ∧ f.field ≠ "" ∧ f.op ≠ "" ∧ filterOpSql f.op ≠ none

instance (f : Filter) : Decidable (specShaped f) := by
  unfold specShaped; infer_instance

theorem buildFilters_bad_key {filters : List Filter}
    (hwf : ∀ f ∈ filters, specShaped f)
    (hex : ∃ f ∈ filters, propsPrefixed f.field = true ∧
      validPropertyKey (propsKey f.field) = false) :
    buildFilters filters = .error .invalidPropertyKey := by
  induction filters with
  | nil => simp at hex
  | cons f rest ih =>
    obtain ⟨hval, hfield, hop, hopsql⟩ := hwf f (by simp)
    obtain ⟨v, hv⟩ : ∃ v, f.value = some v := by
      cases hfv : f.value
      · exact absurd hfv hval
      · exact ⟨_, rfl⟩
    obtain ⟨sqlOp, hsql⟩ : ∃ s, filterOpSql f.op = some s := by
      cases hfs : filterOpSql f.op
      · exact absurd hfs hopsql
      · exact ⟨_, rfl⟩
    have hguard : (f.field == "" || f.op == "") = false := by
      simp [hfield, hop]
    have hrest_wf : ∀ g ∈ rest, specShaped g := fun g hg => hwf g (by simp [hg])
    rcases hex with ⟨g, hg, hgp, hgbad⟩
    rcases List.mem_cons.mp hg with rfl | hgrest
    · -- the offending filter is processed first
      have hnf : FILTERABLE_FIELDS.contains g.field = false :=
        props_field_not_filterable hgp
      simp only [buildFilters, hv, hguard, Bool.false_eq_true, if_false, hsql,
        hnf, hgp, if_true, hgbad]
    · -- the offending filter sits further down; whatever the head does,
      -- the error from the tail propagates
      have htail : buildFilters rest = .error .invalidPropertyKey :=
        ih hrest_wf ⟨g, hgrest, hgp, hgbad⟩
      simp only [buildFilters, hv, hguard, Bool.false_eq_true, if_false, hsql, htail]
      by_cases hff : FILTERABLE_FIELDS.contains f.field
      · simp [hff, Except.map]
      · simp only [hff, Bool.false_eq_true, if_false]
        by_cases hpp : propsPrefixed f.field
        · simp only [hpp, if_true]
          by_cases hvk : validPropertyKey (propsKey f.field)
          · simp [hvk, Except.map]
          · simp [hvk]
        · simp [hpp]

/-- C5: The flexible query operation rejects, with an `INVALID_METRIC`
failure raised before any storage query executes (the function returns an
error instead of a plan), every request containing a metric outside
{event_count, unique_users, session_count, bounce_rate, avg_duration};
and for requests whose metrics and group-by fields are allowed and whose
filters have the `{field, op ∈ {eq,neq,gt,lt,gte,lte}, value}` shape the
spec gives them, it rejects with `INVALID_PROPERTY_KEY`, again before
execution, every request containing a property filter whose key has a
character outside `[A-Za-z0-9_]`, is empty, or exceeds 128 characters. -/
theorem claim_C5 (defaultFrom todayStr : String) (req : QueryReq) :
    ((∃ m ∈ req.metrics, m ∉ ALLOWED_METRICS) →
      isInvalidMetricError (runQuery defaultFrom todayStr req) = true) ∧
    ((∀ m ∈ req.metrics, m ∈ ALLOWED_METRICS) →
     (∀ g ∈ req.group_by, g ∈ ALLOWED_GROUP_BY) →
     (∀ f ∈ req.filters, specShaped f) →
     (∃ f ∈ req.filters, propsPrefixed f.field = true ∧
        validPropertyKey (propsKey f.field) = false) →
      runQuery defaultFrom todayStr req = .error .invalidPropertyKey) := by
  constructor
  · rintro ⟨m, hm, hbad⟩
    have hsome : (req.metrics.find? (fun m => !(ALLOWED_METRICS.contains m))).isSome := by
      refine List.find?_isSome.mpr ⟨m, hm, ?_⟩
      simp only [Bool.not_eq_true']
      cases hc : ALLOWED_METRICS.contains m
      · rfl
      · exact absurd (by simpa using hc) hbad
    obtain ⟨m', hm'⟩ := Option.isSome_iff_exists.mp hsome
    unfold runQuery
    rw [hm']
    rfl
  · intro hmet hgrp hwf hex
    have hfind1 : req.metrics.find? (fun m => !(ALLOWED_METRICS.contains m)) = none := by
      refine List.find?_eq_none.mpr fun m hm => ?_
      have := hmet m hm
      simp [this]
    have hfind2 : req.group_by.find? (fun g => !(ALLOWED_GROUP_BY.contains g)) = none := by
      refine List.find?_eq_none.mpr fun g hg => ?_
      have := hgrp g hg
      simp [this]
    have hbuild : buildFilters req.filters = .error .invalidPropertyKey :=
      buildFilters_bad_key hwf hex
    unfold runQuery
    rw [hfind1]
    simp only []
    rw [hfind2]
    simp only []
    rw [hbuild]

theorem claim_C5_witness :
    isInvalidMetricError (runQuery "2025-01-01" "2025-01-08"
      { project := "p", metrics := ["bogus"] }) = true ∧
    runQuery "2025-01-01" "2025-01-08"
      { project := "p", metrics := ["event_count"],
        filters := [{ field := "properties.bad-key", op := "eq", value := some "x" }] }
      = .error .invalidPropertyKey :=
  ⟨(claim_C5 "2025-01-01" "2025-01-08" _).1 (by decide),
   (claim_C5 "2025-01-01" "2025-01-08" _).2 (by decide) (by decide) (by decide) (by decide)⟩

end AgentAnalytics

namespace AgentAnalytics

/-! ### The bounce-rate / avg-duration select columns -/

theorem metricSelect_mem_alternatives {m : String} {c : SelectCol}
    (h : metricSelect m = some c) :
    c ∈ [SelectCol.countStar "event_count",
         SelectCol.countDistinct "user_id" "unique_users",
         SelectCol.countDistinct "session_id" "session_count",
         SelectCol.countDistinct "session_id" "_session_count_for_bounce",
         SelectCol.countDistinct "session_id" "_session_count_for_duration"] := by
  unfold metricSelect at h
  split_ifs at h <;> simp_all

theorem selectParts_colName_cases {metrics group_by : List String} {c : SelectCol}
    (hc : c ∈ selectParts metrics group_by) :
    colName c ∈ group_by ∨
    colName c ∈ ["event_count", "unique_users", "session_count",
                 "_session_count_for_bounce", "_session_count_for_duration"] := by
  unfold selectParts at hc
  cases hemp : (group_by.map SelectCol.group ++ metrics.filterMap metricSelect).isEmpty with
  | true =>
    rw [hemp] at hc
    simp at hc
    subst hc
    right
    simp [colName]
  | false =>
    rw [hemp] at hc
    simp only [if_neg Bool.false_ne_true] at hc
    rcases List.mem_append.mp hc with hg | hm
    · obtain ⟨g, hg', rfl⟩ := List.mem_map.mp hg
      left
      simpa [colName] using hg'
    · obtain ⟨m, _, hms⟩ := List.mem_filterMap.mp hm
      have halt := metricSelect_mem_alternatives hms
      right
      simp only [List.mem_cons, List.not_mem_nil, or_false] at halt
      rcases halt with h | h | h | h | h <;> rw [h] <;> simp [colName]

theorem metric_col_mem_selectParts {metrics group_by : List String} {m : String}
    {c : SelectCol} (hm : m ∈ metrics) (hms : metricSelect m = some c) :
    c ∈ selectParts metrics group_by := by
  have hmem : c ∈ group_by.map SelectCol.group ++ metrics.filterMap metricSelect := by
    exact List.mem_append.mpr (Or.inr (List.mem_filterMap.mpr ⟨m, hm, hms⟩))
  have hne : (group_by.map SelectCol.group ++ metrics.filterMap metricSelect) ≠ [] :=
    List.ne_nil_of_mem hmem
  unfold selectParts
  cases hemp : (group_by.map SelectCol.group ++ metrics.filterMap metricSelect).isEmpty with
  | true => exact absurd (List.isEmpty_iff.mp hemp) hne
  | false =>
    rw [if_neg (show ¬(false = true) from fun hff => Bool.noConfusion hff)]
    exact hmem

/-- C10: For every flexible query request whose validation succeeds, the
built plan computes neither a bounce rate nor an average duration: no
result column is named `bounce_rate` or `avg_duration`; when those metrics
are requested the plan instead selects a distinct-session count aliased
`_session_count_for_bounce` / `_session_count_for_duration` — even though
both metrics pass validation. -/
theorem claim_C10 (defaultFrom todayStr : String) (req : QueryReq) (plan : QueryPlan)
    (hok : runQuery defaultFrom todayStr req = .ok plan) :
    "bounce_rate" ∉ plan.select.map colName ∧
    "avg_duration" ∉ plan.select.map colName ∧
    ("bounce_rate" ∈ req.metrics →
      SelectCol.countDistinct "session_id" "_session_count_for_bounce" ∈ plan.select) ∧
    ("avg_duration" ∈ req.metrics →
      SelectCol.countDistinct "session_id" "_session_count_for_duration" ∈ plan.select) := by
  cases hf1 : req.metrics.find? (fun m => !(ALLOWED_METRICS.contains m)) with
  | some m => unfold runQuery at hok; rw [hf1] at hok; simp at hok
  | none =>
  cases hf2 : req.group_by.find? (fun g => !(ALLOWED_GROUP_BY.contains g)) with
  | some g => unfold runQuery at hok; rw [hf1] at hok; simp only [] at hok; rw [hf2] at hok; simp at hok
  | none =>
  cases hb : buildFilters req.filters with
  | error e =>
    unfold runQuery at hok; rw [hf1] at hok; simp only [] at hok; rw [hf2] at hok
    simp only [] at hok; rw [hb] at hok; simp at hok
  | ok preds =>
    have hsel : plan.select = selectParts req.metrics req.group_by := by
      unfold runQuery at hok; rw [hf1] at hok; simp only [] at hok; rw [hf2] at hok
      simp only [] at hok; rw [hb] at hok
      have := Except.ok.inj hok
      rw [← this]
    have hgrp : ∀ g ∈ req.group_by, g ∈ ALLOWED_GROUP_BY := by
      intro g hg
      have := List.find?_eq_none.mp hf2 g hg
      simp only [Bool.not_eq_true', Bool.not_eq_false] at this
      simpa using this
    have hnogrp : ∀ s, s ∈ plan.select.map colName →
        s ≠ "bounce_rate" ∧ s ≠ "avg_duration" := by
      intro s hs
      obtain ⟨c, hc, rfl⟩ := List.mem_map.mp hs
      rw [hsel] at hc
      rcases selectParts_colName_cases hc with hg | hfixed
      · have hmem4 := hgrp _ hg
        simp only [ALLOWED_GROUP_BY, List.mem_cons, List.mem_singleton,
          List.not_mem_nil, or_false] at hmem4
        rcases hmem4 with h | h | h | h <;> exact ⟨by simp [h], by simp [h]⟩
      · simp only [List.mem_cons, List.mem_singleton, List.not_mem_nil, or_false] at hfixed
        rcases hfixed with h | h | h | h | h <;> exact ⟨by simp [h], by simp [h]⟩
    refine ⟨?_, ?_, ?_, ?_⟩
    · intro hmem
      exact absurd rfl (hnogrp _ hmem).1
    · intro hmem
      exact absurd rfl (hnogrp _ hmem).2
    · intro hm
      rw [hsel]
      exact metric_col_mem_selectParts hm rfl
    · intro hm
      rw [hsel]
      exact metric_col_mem_selectParts hm rfl

theorem claim_C10_witness :
    "bounce_rate" ∉ c10Plan.select.map colName ∧
    "avg_duration" ∉ c10Plan.select.map colName ∧
    ("bounce_rate" ∈ c10Req.metrics →
      SelectCol.countDistinct "session_id" "_session_count_for_bounce" ∈ c10Plan.select) ∧
    ("avg_duration" ∈ c10Req.metrics →
      SelectCol.countDistinct "session_id" "_session_count_for_duration" ∈ c10Plan.select) :=
  claim_C10 "2025-01-01" "2025-01-08" c10Req c10Plan rfl

end AgentAnalytics

namespace AgentAnalytics

/-! ### Experiment resolution claims -/

set_option maxRecDepth 8192 in
/-- C6 fails on the shipped tracker: `aa.experiment` in `tracker.src.js`
never reads the override query parameter (the parameter is not even an
input of the function), so with the override `aa_variant_hero_headline =
new_copy` present on first resolution it still hash-assigns `control` for
user `user_999` and emits an exposure without the forced marker — while
`experimentWithForcing`, the behaviour the test suite documents as "must
match tracker.src.js" and the behaviour the claim describes, returns the
forced `new_copy` with a forced-marked exposure. -/
theorem claim_C6 :
    trackerExperiment (some heroConfig) "user_999" [] "hero_headline" none
      = { variant := some "control",
          cache := [("hero_headline", "control")],
          exposures := [⟨"hero_headline", "control", false⟩] } ∧
    experimentWithForcing "hero_headline" (some heroConfig) [] "user_999"
        [("aa_variant_hero_headline", "new_copy")] none
      = { variant := some "new_copy",
          cache := [("hero_headline", "new_copy")],
          exposures := [⟨"hero_headline", "new_copy", true⟩] } ∧
    ("control" : String) ≠ "new_copy" := by
  refine ⟨by decide, by decide, by decide⟩

/-- C7: For every experiment name, resolution through the per-execution-
context cache is idempotent: a hit returns the cached variant with no
exposure emission and no state change; any resolution that produces a
variant stores it under the experiment's name; and no resolution disturbs
the cache entries of other experiment names — so every second or later
resolution of a name returns the variant of the first and emits nothing. -/
theorem claim_C7 (experimentConfig : Option (List ExpConfig)) (userId : String)
    (cache : List (String × String)) (name : String)
    (inlineVariants : Option (List String)) :
    (∀ v, cache.lookup name = some v →
      trackerExperiment experimentConfig userId cache name inlineVariants
        = { variant := some v, cache := cache, exposures := [] }) ∧
    (∀ v cache' exps,
      trackerExperiment experimentConfig userId cache name inlineVariants
        = { variant := some v, cache := cache', exposures := exps } →
      cache'.lookup name = some v) ∧
    (∀ other, other ≠ name →
      (trackerExperiment experimentConfig userId cache name inlineVariants).cache.lookup other
        = cache.lookup other) := by
  refine ⟨?_, ?_, ?_⟩
  · intro v hv
    simp [trackerExperiment, hv]
  · intro v cache' exps heq
    cases hlook : cache.lookup name with
    | some v0 =>
      simp only [trackerExperiment, hlook, ExpOutcome.mk.injEq] at heq
      obtain ⟨h1, h2, h3⟩ := heq
      rw [← h2, hlook]
      exact h1
    | none =>
      cases hcfg : resolveConfig experimentConfig name inlineVariants with
      | none =>
        simp only [trackerExperiment, hlook, hcfg, ExpOutcome.mk.injEq] at heq
        exact absurd heq.1 (by simp)
      | some cfg =>
        cases hvars : cfg.variants with
        | nil =>
          simp only [trackerExperiment, hlook, hcfg, hvars, ExpOutcome.mk.injEq] at heq
          exact absurd heq.1 (by simp)
        | cons v0 rest =>
          simp only [trackerExperiment, hlook, hcfg, hvars, ExpOutcome.mk.injEq] at heq
          obtain ⟨h1, h2, h3⟩ := heq
          rw [← h2]
          simpa [List.lookup] using h1
  · intro other hne
    cases hlook : cache.lookup name with
    | some v0 => simp [trackerExperiment, hlook]
    | none =>
      cases hcfg : resolveConfig experimentConfig name inlineVariants with
      | none => simp [trackerExperiment, hlook, hcfg]
      | some cfg =>
        cases hvars : cfg.variants with
        | nil => simp [trackerExperiment, hlook, hcfg, hvars]
        | cons v0 rest =>
          simp only [trackerExperiment, hlook, hcfg, hvars]
          have hb : (other == name) = false := beq_eq_false_iff_ne.mpr hne
          simp [List.lookup, hb]

theorem claim_C7_witness :
    trackerExperiment none "u" [("exp", "a")] "exp" none
      = { variant := some "a", cache := [("exp", "a")], exposures := [] } ∧
    ([("exp", "a")] : List (String × String)).lookup "exp" = some "a" ∧
    (trackerExperiment none "u" [("exp", "a")] "exp" none).cache.lookup "other"
      = ([("exp", "a")] : List (String × String)).lookup "other" :=
  ⟨(claim_C7 none "u" [("exp", "a")] "exp" none).1 "a" (by decide),
   (claim_C7 none "u" [("exp", "a")] "exp" none).2.1 "a" [("exp", "a")] []
     ((claim_C7 none "u" [("exp", "a")] "exp" none).1 "a" (by decide)),
   (claim_C7 none "u" [("exp", "a")] "exp" none).2.2 "other" (by decide)⟩

/-- C8: For every insights metric delta, `change = current − previous` and
`change_pct = round(change/previous × 100)` when `previous > 0`; when
`previous = 0`, `change_pct` is `null` if `current > 0` and `0` otherwise;
in particular current 5 against previous 0 yields change 5 and a `null`
`change_pct` rather than a division-by-zero error. -/
theorem claim_C8 (current previous : ℚ) :
    (delta current previous).change = current - previous ∧
    (previous > 0 → (delta current previous).change_pct
        = some (jsRound ((current - previous) / previous * 100))) ∧
    (previous = 0 → current > 0 → (delta current previous).change_pct = none) ∧
    (previous = 0 → ¬ current > 0 → (delta current previous).change_pct = some 0) ∧
    (delta 5 0).change = 5 ∧ (delta 5 0).change_pct = none := by
  refine ⟨rfl, ?_, ?_, ?_, by norm_num [delta], ?_⟩
  · intro h
    simp [delta, h]
  · intro h0 hc
    simp [delta, h0, hc]
  · intro h0 hc
    simp [delta, h0, hc]
  · norm_num [delta]

end AgentAnalytics

namespace AgentAnalytics

theorem claim_C8_witness :
    (delta 5 0).change_pct = none ∧
    (delta 0 0).change_pct = some 0 ∧
    (delta 10 5).change_pct = some (jsRound ((10 - 5) / 5 * 100)) :=
  ⟨(claim_C8 5 0).2.2.1 rfl (by norm_num),
   (claim_C8 0 0).2.2.2.1 rfl (by norm_num),
   (claim_C8 10 5).2.1 (by norm_num)⟩

end AgentAnalytics
